import Mathlib

/-!
Shallow embedding of the strip layout primitive from
`egui_extras/src/strip.rs` (`StripBuilder` and the `Strip` cursor), together
with models of the collaborators whose sources are not part of this
repository snapshot (`StripLayout` from `layout.rs`, `Sizing` from
`sizing.rs`), modelled from the specification where noted.

Pixel lengths are modelled as rationals.  The layout engine is modelled as an
event log, so the order and content of the `add` / `empty` / `allocate_rect`
calls it receives are observable.  `L` stands for the opaque `egui::Layout`
policy type and `S` for the opaque `Size` specification type; the code under
verification never inspects either.
-/

/-- Build mode: `cfg!(debug_assertions)` selects which branch of the
over-consumption policy in `Strip::next_cell_size` runs. -/
inductive BuildMode where
  | debug
  | release
  deriving DecidableEq

/-- `CellDirection` from `egui_extras`: the primary axis of a strip. -/
inductive CellDirection where
  | Horizontal
  | Vertical
  deriving DecidableEq

/-- Modelled from the spec: `CellSize` (from the missing `layout.rs`) as used
by `strip.rs` — an absolute length on one axis, or fill-remaining. -/
inductive CellSize where
  | Absolute (size : ℚ)
  | Remainder
  deriving DecidableEq

/-- One operation forwarded to the strip layout engine.  Modelled from the
spec (§4.3): the engine's observable effect is the ordered sequence of `add`,
`empty` and `allocate_rect` calls it receives. -/
inductive LayoutEvent where
  | add (width height : CellSize)
  | empty (width height : CellSize)
  | allocateRect
  deriving DecidableEq

/-- Modelled from the spec: the Strip Layout Engine state (`StripLayout` from
the missing `layout.rs`): direction, clip flag, cell layout policy, and the
log of operations forwarded to it so far. -/
structure StripLayout (L : Type) where
  direction : CellDirection
  clip : Bool
  cell_layout : L
  events : List LayoutEvent
  deriving DecidableEq

/-- Modelled from the spec: `StripLayout::new` starts with an empty log. -/
def StripLayout.new {L : Type} (direction : CellDirection) (clip : Bool)
    (cell_layout : L) : StripLayout L :=
  { direction := direction, clip := clip, cell_layout := cell_layout,
    events := [] }

/-- Modelled from the spec: `StripLayout::add` allocates one cell region and
runs its content callback inside it; observable as one `add` event. -/
def StripLayout.add {L : Type} (l : StripLayout L) (width height : CellSize) :
    StripLayout L :=
  { l with events := l.events ++ [LayoutEvent.add width height] }

/-- Modelled from the spec: `StripLayout::empty` does the same cursor
bookkeeping with no callback; observable as one `empty` event. -/
def StripLayout.empty {L : Type} (l : StripLayout L) (width height : CellSize) :
    StripLayout L :=
  { l with events := l.events ++ [LayoutEvent.empty width height] }

/-- Modelled from the spec: the interaction handle returned by
`allocate_rect`, summarizing the whole strip region.  It is modelled as the
final event log, so that the finalization order is observable on it. -/
structure Response where
  events : List LayoutEvent
  deriving DecidableEq

/-- Modelled from the spec: `StripLayout::allocate_rect` finalizes the engine
and returns the interaction handle. -/
def StripLayout.allocate_rect {L : Type} (l : StripLayout L) :
    StripLayout L × Response :=
  let l2 := { l with events := l.events ++ [LayoutEvent.allocateRect] }
  (l2, ⟨l2.events⟩)

/-- The slice of the `egui::Ui` surface that `strip.rs` reads: the current
layout policy, the available rectangle extents, and the per-axis item
spacing (spec §6 external interface). -/
structure Ui (L : Type) where
  layout : L
  availableWidth : ℚ
  availableHeight : ℚ
  itemSpacingX : ℚ
  itemSpacingY : ℚ
  deriving DecidableEq

/-- `StripBuilder` from `strip.rs`: the borrowed surface, the accumulated
sizing sequence, the clip flag and the cell layout.  `Sizing` (missing
`sizing.rs`) is modelled from the spec as an insertion-ordered sequence of
size specifications, so `sizing` is a `List S` and `Sizing::add` appends. -/
structure StripBuilder (L S : Type) where
  ui : Ui L
  sizing : List S
  clip : Bool
  cell_layout : L
  deriving DecidableEq

/-- `StripBuilder::new`: copy the surface's current layout, default (empty)
sizing, clipping on. -/
def StripBuilder.new {L S : Type} (ui : Ui L) : StripBuilder L S :=
  { ui := ui, sizing := [], clip := true, cell_layout := ui.layout }

/-- `StripBuilder::clip` (named `set_clip` here because `clip` is the field
projection). -/
def StripBuilder.set_clip {L S : Type} (b : StripBuilder L S) (clip : Bool) :
    StripBuilder L S :=
  { b with clip := clip }

/-- `StripBuilder::cell_layout` (named `set_cell_layout` here because
`cell_layout` is the field projection). -/
def StripBuilder.set_cell_layout {L S : Type} (b : StripBuilder L S)
    (cell_layout : L) : StripBuilder L S :=
  { b with cell_layout := cell_layout }

/-- `StripBuilder::size`: allocate space for one column/row by appending one
specification (`Sizing::add` modelled from the spec as an append). -/
def StripBuilder.size {L S : Type} (b : StripBuilder L S) (size : S) :
    StripBuilder L S :=
  { b with sizing := b.sizing ++ [size] }

/-- `StripBuilder::sizes`: `for _ in 0..count { self.sizing.add(size) }`. -/
def StripBuilder.sizes {L S : Type} (b : StripBuilder L S) (size : S)
    (count : ℕ) : StripBuilder L S :=
  (List.range count).foldl (fun acc _ => acc.size size) b

/-- The `Strip` cursor from `strip.rs`: the layout engine (held in Rust by
exclusive reference, here threaded by value), a copy of the direction, and
the view of the remaining resolved lengths.  `diagnostics` is a ghost counter
for the `eprintln!` / `tracing::error!` diagnostic that the release branch of
`next_cell_size` emits. -/
structure Strip (L : Type) where
  layout : StripLayout L
  direction : CellDirection
  sizes : List ℚ
  diagnostics : ℕ
  deriving DecidableEq

/-- The trailing `match self.direction` of `Strip::next_cell_size`: the
consumed length is absolute on the primary axis and the cross axis fills the
remainder. -/
def cellSizePair (direction : CellDirection) (size : ℚ) : CellSize × CellSize :=
  match direction with
  | CellDirection.Horizontal => (CellSize.Absolute size, CellSize.Remainder)
  | CellDirection.Vertical => (CellSize.Remainder, CellSize.Absolute size)

/-- `Strip::next_cell_size`: pop the next resolved length from the front of
the view; on an empty view, panic in a debug build (modelled as
`Except.error`) or, in a release build, emit a diagnostic and substitute the
fixed fallback length `8`. -/
def Strip.next_cell_size {L : Type} (mode : BuildMode) (s : Strip L) :
    Except String ((CellSize × CellSize) × Strip L) :=
  match s.sizes with
  | [] =>
    match mode with
    | BuildMode.debug =>
        Except.error "Added more Strip cells than were allocated."
    | BuildMode.release =>
        Except.ok (cellSizePair s.direction 8,
          { s with diagnostics := s.diagnostics + 1 })
  | size :: rest =>
      Except.ok (cellSizePair s.direction size, { s with sizes := rest })

/-- `Strip::cell`: take the next cell size and forward it to
`StripLayout::add` (the user's drawing inside the cell is outside the
model). -/
def Strip.cell {L : Type} (mode : BuildMode) (s : Strip L) :
    Except String (Strip L) := do
  let r ← s.next_cell_size mode
  Except.ok { r.2 with layout := r.2.layout.add r.1.1 r.1.2 }

/-- `Strip::empty`: take the next cell size and forward it to
`StripLayout::empty`. -/
def Strip.empty {L : Type} (mode : BuildMode) (s : Strip L) :
    Except String (Strip L) := do
  let r ← s.next_cell_size mode
  Except.ok { r.2 with layout := r.2.layout.empty r.1.1 r.1.2 }

/-- `Strip::strip`: read the engine's clip flag, then add exactly one `cell`
whose content callback hands the user a fresh builder over the cell's `ui`
with the inherited clip flag.  The returned builder is the value passed to
the user's `strip_builder` callback. -/
def Strip.strip {L : Type} (S : Type) (mode : BuildMode) (s : Strip L)
    (cellUi : Ui L) : Except String (Strip L × StripBuilder L S) := do
  let clip := s.layout.clip
  let s1 ← s.cell mode
  Except.ok (s1, (StripBuilder.new cellUi).set_clip clip)

/-- Unfolding of `Strip::empty` on a non-empty view: it always succeeds,
consumes the head length, and logs one `empty` event. -/
theorem Strip.empty_cons {L : Type} (mode : BuildMode) (s : Strip L) (q : ℚ)
    (rest : List ℚ) (h : s.sizes = q :: rest) :
    s.empty mode = Except.ok
      { layout := s.layout.empty (cellSizePair s.direction q).1
          (cellSizePair s.direction q).2,
        direction := s.direction, sizes := rest,
        diagnostics := s.diagnostics } := by
  obtain ⟨lay, dir, sz, d⟩ := s
  simp only at h
  subst h
  rfl

/-- Unfolding of `Strip::cell` on a non-empty view: it always succeeds,
consumes the head length, and logs one `add` event. -/
theorem Strip.cell_cons {L : Type} (mode : BuildMode) (s : Strip L) (q : ℚ)
    (rest : List ℚ) (h : s.sizes = q :: rest) :
    s.cell mode = Except.ok
      { layout := s.layout.add (cellSizePair s.direction q).1
          (cellSizePair s.direction q).2,
        direction := s.direction, sizes := rest,
        diagnostics := s.diagnostics } := by
  obtain ⟨lay, dir, sz, d⟩ := s
  simp only at h
  subst h
  rfl

/-- `impl Drop for Strip`:
`while !self.sizes.is_empty() { self.empty(); }`.  Inside the loop the view
is non-empty, so `empty` cannot hit the over-consumption branch; the `error`
arm is unreachable (see `Strip.empty_cons`). -/
def Strip.drop {L : Type} (mode : BuildMode) (s : Strip L) : Strip L :=
  if h : s.sizes = [] then s
  else
    match h2 : s.empty mode with
    | Except.ok s1 => Strip.drop mode s1
    | Except.error _ => s
termination_by s.sizes.length
decreasing_by
  obtain ⟨q, rest, hs⟩ := List.exists_cons_of_ne_nil h
  rw [Strip.empty_cons mode s q rest hs] at h2
  injection h2 with h3
  subst h3
  simp [hs]

/-- `StripBuilder::horizontal`: resolve the widths from the available width
and the horizontal item spacing, build a horizontal layout engine from the
builder's clip and cell-layout settings, hand a cursor over both to the
caller's callback `f`, drain the cursor on scope exit, then `allocate_rect`
and return the interaction handle.  `to_lengths` (`Sizing::to_lengths` from
the missing `sizing.rs`) is passed in as the resolver function. -/
def StripBuilder.horizontal {L S : Type} (to_lengths : List S → ℚ → ℚ → List ℚ)
    (b : StripBuilder L S) (mode : BuildMode)
    (f : Strip L → Except String (Strip L)) : Except String Response := do
  let widths := to_lengths b.sizing b.ui.availableWidth b.ui.itemSpacingX
  let layout := StripLayout.new CellDirection.Horizontal b.clip b.cell_layout
  let s1 ← f { layout := layout, direction := CellDirection.Horizontal,
               sizes := widths, diagnostics := 0 }
  let s2 := s1.drop mode
  Except.ok (s2.layout.allocate_rect).2

/-- `StripBuilder::vertical`: as `horizontal`, but resolving the heights from
the available height and the vertical item spacing, with a vertical engine. -/
def StripBuilder.vertical {L S : Type} (to_lengths : List S → ℚ → ℚ → List ℚ)
    (b : StripBuilder L S) (mode : BuildMode)
    (f : Strip L → Except String (Strip L)) : Except String Response := do
  let heights := to_lengths b.sizing b.ui.availableHeight b.ui.itemSpacingY
  let layout := StripLayout.new CellDirection.Vertical b.clip b.cell_layout
  let s1 ← f { layout := layout, direction := CellDirection.Vertical,
               sizes := heights, diagnostics := 0 }
  let s2 := s1.drop mode
  Except.ok (s2.layout.allocate_rect).2

/-- Modelled from the spec (§4.4, finalization steps 1–5), for comparison
with the source translation: query the available length on the chosen axis,
resolve the lengths with that axis's item spacing, construct the engine for
the chosen direction with the builder's clip and cell-layout settings, invoke
the callback exactly once on a cursor over the engine and the resolved
lengths, drain the cursor, call `allocate_rect`, and return its handle. -/
def finalizeSpec {L S : Type} (to_lengths : List S → ℚ → ℚ → List ℚ)
    (b : StripBuilder L S) (direction : CellDirection) (available spacing : ℚ)
    (mode : BuildMode) (f : Strip L → Except String (Strip L)) :
    Except String Response :=
  let lengths := to_lengths b.sizing available spacing
  let engine := StripLayout.new direction b.clip b.cell_layout
  match f { layout := engine, direction := direction, sizes := lengths,
            diagnostics := 0 } with
  | Except.error e => Except.error e
  | Except.ok s1 => Except.ok (((s1.drop mode).layout.allocate_rect)).2

/-- One caller-issued cursor operation, used to model the caller's callback
as a script: `cell` or `empty` (a nested `strip` performs exactly one `cell`,
see `Strip.strip`). -/
inductive StripCmd where
  | cell
  | empty
  deriving DecidableEq

/-- Run a script of cursor operations from left to right. -/
def runCmds {L : Type} (mode : BuildMode) :
    List StripCmd → Strip L → Except String (Strip L)
  | [], s => Except.ok s
  | c :: cs, s => do
      let s1 ← (match c with
        | StripCmd.cell => s.cell mode
        | StripCmd.empty => s.empty mode)
      runCmds mode cs s1

/-- The absolute component of a cell size, if any. -/
def CellSize.abs? : CellSize → Option ℚ
  | CellSize.Absolute size => some size
  | CellSize.Remainder => none

/-- The primary-axis length carried by one engine event, given the strip
direction: the width component for a horizontal strip, the height component
for a vertical one. -/
def LayoutEvent.primaryLen (direction : CellDirection) :
    LayoutEvent → Option ℚ
  | LayoutEvent.add w h =>
      match direction with
      | CellDirection.Horizontal => w.abs?
      | CellDirection.Vertical => h.abs?
  | LayoutEvent.empty w h =>
      match direction with
      | CellDirection.Horizontal => w.abs?
      | CellDirection.Vertical => h.abs?
  | LayoutEvent.allocateRect => none

/-- The sequence of primary-axis lengths consumed by a list of engine
events, in order. -/
def consumedLengths (direction : CellDirection) (events : List LayoutEvent) :
    List ℚ :=
  events.filterMap (LayoutEvent.primaryLen direction)

/-- The engine event produced by one successful cursor operation consuming
the length `size`. -/
def StripCmd.event (direction : CellDirection) (size : ℚ) :
    StripCmd → LayoutEvent
  | StripCmd.cell =>
      LayoutEvent.add (cellSizePair direction size).1
        (cellSizePair direction size).2
  | StripCmd.empty =>
      LayoutEvent.empty (cellSizePair direction size).1
        (cellSizePair direction size).2

/-- The `empty` events logged by the drop-time drain over a list of
remaining lengths. -/
def drainEvents (direction : CellDirection) (sizes : List ℚ) :
    List LayoutEvent :=
  sizes.map fun size =>
    LayoutEvent.empty (cellSizePair direction size).1
      (cellSizePair direction size).2

/-- The engine events produced by a script run against a list of resolved
lengths: in-order consumption while lengths remain, then (release-mode
over-consumption) one fallback event of length `8` per extra operation. -/
def cmdEvents (direction : CellDirection) (cmds : List StripCmd)
    (sizes : List ℚ) : List LayoutEvent :=
  List.zipWith (fun c q => StripCmd.event direction q c) cmds sizes
    ++ (cmds.drop sizes.length).map fun c => StripCmd.event direction 8 c

/-- Unfolding of `Strip::cell` on an empty view in a debug build: the pass
panics. -/
theorem Strip.cell_nil_debug {L : Type} (s : Strip L) (h : s.sizes = []) :
    s.cell BuildMode.debug =
      Except.error "Added more Strip cells than were allocated." := by
  obtain ⟨lay, dir, sz, d⟩ := s
  simp only at h
  subst h
  rfl

/-- Unfolding of `Strip::empty` on an empty view in a debug build: the pass
panics. -/
theorem Strip.empty_nil_debug {L : Type} (s : Strip L) (h : s.sizes = []) :
    s.empty BuildMode.debug =
      Except.error "Added more Strip cells than were allocated." := by
  obtain ⟨lay, dir, sz, d⟩ := s
  simp only at h
  subst h
  rfl

/-- Unfolding of `Strip::cell` on an empty view in a release build: one
diagnostic is emitted and the fixed fallback length `8` is used. -/
theorem Strip.cell_nil_release {L : Type} (s : Strip L) (h : s.sizes = []) :
    s.cell BuildMode.release = Except.ok
      { layout := s.layout.add (cellSizePair s.direction 8).1
          (cellSizePair s.direction 8).2,
        direction := s.direction, sizes := [],
        diagnostics := s.diagnostics + 1 } := by
  obtain ⟨lay, dir, sz, d⟩ := s
  simp only at h
  subst h
  rfl

/-- Unfolding of `Strip::empty` on an empty view in a release build: one
diagnostic is emitted and the fixed fallback length `8` is used. -/
theorem Strip.empty_nil_release {L : Type} (s : Strip L) (h : s.sizes = []) :
    s.empty BuildMode.release = Except.ok
      { layout := s.layout.empty (cellSizePair s.direction 8).1
          (cellSizePair s.direction 8).2,
        direction := s.direction, sizes := [],
        diagnostics := s.diagnostics + 1 } := by
  obtain ⟨lay, dir, sz, d⟩ := s
  simp only at h
  subst h
  rfl

/-- Reduction of the `Except` bind used by the do-notation on a success. -/
@[simp]
theorem exceptBind_ok {α β : Type} (a : α) (f : α → Except String β) :
    (do
      let x ← (Except.ok a : Except String α)
      f x) = f a := rfl

/-- Reduction of the `Except` bind used by the do-notation on an error. -/
@[simp]
theorem exceptBind_err {α β : Type} (e : String) (f : α → Except String β) :
    (do
      let x ← (Except.error e : Except String α)
      f x) = (Except.error e : Except String β) := rfl

/-- Closed form of the drop-time drain, by induction on the length of the
remaining view. -/
theorem Strip.drop_spec_aux {L : Type} (mode : BuildMode) (n : ℕ) :
    ∀ s : Strip L, s.sizes.length = n →
    Strip.drop mode s =
      { layout := { s.layout with events :=
          s.layout.events ++ drainEvents s.direction s.sizes },
        direction := s.direction, sizes := [],
        diagnostics := s.diagnostics } := by
  induction n with
  | zero =>
      intro s hn
      obtain ⟨lay, dir, sz, d⟩ := s
      simp only at hn
      have hsz : sz = [] := List.length_eq_zero.mp hn
      subst hsz
      rw [Strip.drop.eq_def]
      simp [drainEvents]
  | succ n ih =>
      intro s hn
      obtain ⟨lay, dir, sz, d⟩ := s
      simp only at hn
      cases sz with
      | nil => simp at hn
      | cons q rest =>
        have hrest : rest.length = n := by simpa using hn
        rw [Strip.drop.eq_def]
        split
        · simp_all
        · split
          · rename_i s1 heq
            rw [Strip.empty_cons mode ⟨lay, dir, q :: rest, d⟩ q rest rfl]
              at heq
            injection heq with heq2
            subst heq2
            rw [ih _ hrest]
            simp [StripLayout.empty, drainEvents]
          · rename_i e heq
            rw [Strip.empty_cons mode ⟨lay, dir, q :: rest, d⟩ q rest rfl]
              at heq
            cases heq

/-- Closed form of the drop-time drain: it zeroes the view and logs exactly
one `empty` event per remaining length, in order. -/
theorem Strip.drop_spec {L : Type} (mode : BuildMode) (s : Strip L) :
    Strip.drop mode s =
      { layout := { s.layout with events :=
          s.layout.events ++ drainEvents s.direction s.sizes },
        direction := s.direction, sizes := [],
        diagnostics := s.diagnostics } :=
  Strip.drop_spec_aux mode s.sizes.length s rfl

/-- Closed form of `runCmds` when the script is no longer than the remaining
view: every operation succeeds, the i-th operation consumes the i-th length,
and no diagnostic is emitted. -/
theorem runCmds_ok {L : Type} (mode : BuildMode) (cmds : List StripCmd)
    (s : Strip L) (h : cmds.length ≤ s.sizes.length) :
    runCmds mode cmds s = Except.ok
      { layout := { s.layout with events := (s.layout.events ++
          List.zipWith (fun c q => StripCmd.event s.direction q c) cmds
            s.sizes) },
        direction := s.direction, sizes := s.sizes.drop cmds.length,
        diagnostics := s.diagnostics } := by
  induction cmds generalizing s with
  | nil =>
      obtain ⟨lay, dir, sz, d⟩ := s
      simp [runCmds]
  | cons c cs ih =>
      obtain ⟨lay, dir, sz, d⟩ := s
      simp only [List.length_cons] at h
      cases sz with
      | nil => simp at h
      | cons q rest =>
        have h1 : cs.length ≤ rest.length := by simpa using h
        cases c with
        | cell =>
            simp only [runCmds, Strip.cell_cons mode ⟨lay, dir, q :: rest, d⟩
              q rest rfl, exceptBind_ok]
            rw [ih _ h1]
            simp [StripLayout.add, StripCmd.event]
        | empty =>
            simp only [runCmds, Strip.empty_cons mode ⟨lay, dir, q :: rest, d⟩
              q rest rfl, exceptBind_ok]
            rw [ih _ h1]
            simp [StripLayout.empty, StripCmd.event]

/-- Closed form of `runCmds` in a release build, with no length restriction:
operations beyond the view log fallback events of length `8` and emit one
diagnostic each. -/
theorem runCmds_release {L : Type} (cmds : List StripCmd) (s : Strip L) :
    runCmds BuildMode.release cmds s = Except.ok
      { layout := { s.layout with events := (s.layout.events ++
          cmdEvents s.direction cmds s.sizes) },
        direction := s.direction, sizes := s.sizes.drop cmds.length,
        diagnostics := s.diagnostics + (cmds.length - s.sizes.length) } := by
  induction cmds generalizing s with
  | nil =>
      obtain ⟨lay, dir, sz, d⟩ := s
      simp [runCmds, cmdEvents]
  | cons c cs ih =>
      obtain ⟨lay, dir, sz, d⟩ := s
      cases sz with
      | nil =>
        cases c with
        | cell =>
            simp only [runCmds,
              Strip.cell_nil_release ⟨lay, dir, [], d⟩ rfl, exceptBind_ok]
            rw [ih]
            simp only [cmdEvents, List.zipWith_nil_right, List.drop_zero,
              List.nil_append, List.map_cons, StripLayout.add, StripCmd.event]
            simp [List.append_assoc]
            omega
        | empty =>
            simp only [runCmds,
              Strip.empty_nil_release ⟨lay, dir, [], d⟩ rfl, exceptBind_ok]
            rw [ih]
            simp only [cmdEvents, List.zipWith_nil_right, List.drop_zero,
              List.nil_append, List.map_cons, StripLayout.empty, StripCmd.event]
            simp [List.append_assoc]
            omega
      | cons q rest =>
        cases c with
        | cell =>
            simp only [runCmds, Strip.cell_cons BuildMode.release
              ⟨lay, dir, q :: rest, d⟩ q rest rfl, exceptBind_ok]
            rw [ih]
            simp [cmdEvents, StripLayout.add, StripCmd.event,
              List.append_assoc, Nat.succ_sub_succ]
        | empty =>
            simp only [runCmds, Strip.empty_cons BuildMode.release
              ⟨lay, dir, q :: rest, d⟩ q rest rfl, exceptBind_ok]
            rw [ih]
            simp [cmdEvents, StripLayout.empty, StripCmd.event,
              List.append_assoc, Nat.succ_sub_succ]

/-- In a debug build a script longer than the view always aborts the pass
with the over-consumption panic. -/
theorem runCmds_debug_err {L : Type} (cmds : List StripCmd) (s : Strip L)
    (h : s.sizes.length < cmds.length) :
    runCmds BuildMode.debug cmds s =
      Except.error "Added more Strip cells than were allocated." := by
  induction cmds generalizing s with
  | nil => simp at h
  | cons c cs ih =>
      obtain ⟨lay, dir, sz, d⟩ := s
      simp only [List.length_cons] at h
      cases sz with
      | nil =>
        cases c with
        | cell =>
            simp [runCmds, Strip.cell_nil_debug ⟨lay, dir, [], d⟩ rfl]
        | empty =>
            simp [runCmds, Strip.empty_nil_debug ⟨lay, dir, [], d⟩ rfl]
      | cons q rest =>
        have h1 : rest.length < cs.length := by simpa using h
        cases c with
        | cell =>
            simp only [runCmds, Strip.cell_cons BuildMode.debug
              ⟨lay, dir, q :: rest, d⟩ q rest rfl, exceptBind_ok]
            exact ih _ h1
        | empty =>
            simp only [runCmds, Strip.empty_cons BuildMode.debug
              ⟨lay, dir, q :: rest, d⟩ q rest rfl, exceptBind_ok]
            exact ih _ h1

/-- A cursor operation consuming `size` produces an event whose primary-axis
length is exactly `size`. -/
theorem primaryLen_event (direction : CellDirection) (size : ℚ)
    (c : StripCmd) :
    LayoutEvent.primaryLen direction (StripCmd.event direction size c) =
      some size := by
  cases direction <;> cases c <;> rfl

/-- A drain-logged `empty` event carries the drained length on the primary
axis. -/
theorem primaryLen_emptyPair (direction : CellDirection) (size : ℚ) :
    LayoutEvent.primaryLen direction
      (LayoutEvent.empty (cellSizePair direction size).1
        (cellSizePair direction size).2) = some size := by
  cases direction <;> rfl

/-- The drain consumes exactly the remaining lengths, in order. -/
theorem consumedLengths_drainEvents (direction : CellDirection)
    (sizes : List ℚ) :
    consumedLengths direction (drainEvents direction sizes) = sizes := by
  induction sizes with
  | nil => rfl
  | cons q rest ih =>
      simp only [drainEvents, List.map_cons, consumedLengths,
        List.filterMap_cons, primaryLen_emptyPair] at ih ⊢
      simpa using ih

/-- Unfolding of `cmdEvents` when both the script and the view are
non-empty. -/
theorem cmdEvents_cons_cons (direction : CellDirection) (c : StripCmd)
    (cs : List StripCmd) (q : ℚ) (rest : List ℚ) :
    cmdEvents direction (c :: cs) (q :: rest) =
      StripCmd.event direction q c :: cmdEvents direction cs rest := by
  simp [cmdEvents]

/-- Unfolding of `cmdEvents` when the view is exhausted: each remaining
operation logs a fallback event of length `8`. -/
theorem cmdEvents_cons_nil (direction : CellDirection) (c : StripCmd)
    (cs : List StripCmd) :
    cmdEvents direction (c :: cs) [] =
      StripCmd.event direction 8 c :: cmdEvents direction cs [] := by
  simp [cmdEvents]

/-- The lengths consumed by a script run: the resolved lengths it reaches, in
order, followed by one fallback length `8` per over-consuming operation. -/
theorem consumedLengths_cmdEvents (direction : CellDirection)
    (cmds : List StripCmd) (sizes : List ℚ) :
    consumedLengths direction (cmdEvents direction cmds sizes) =
      sizes.take cmds.length ++
        List.replicate (cmds.length - sizes.length) 8 := by
  induction cmds generalizing sizes with
  | nil => simp [cmdEvents, consumedLengths]
  | cons c cs ih =>
      cases sizes with
      | nil =>
          simp only [cmdEvents_cons_nil, consumedLengths,
            List.filterMap_cons, primaryLen_event]
          have := ih []
          simp only [consumedLengths] at this
          simp [this, List.replicate_succ]
      | cons q rest =>
          simp only [cmdEvents_cons_cons, consumedLengths,
            List.filterMap_cons, primaryLen_event]
          have := ih rest
          simp only [consumedLengths] at this
          simp [this, Nat.succ_sub_succ]

/-- Script-produced events are never `allocate_rect`. -/
theorem event_ne_allocateRect (direction : CellDirection) (size : ℚ)
    (c : StripCmd) :
    StripCmd.event direction size c ≠ LayoutEvent.allocateRect := by
  cases direction <;> cases c <;> simp [StripCmd.event, cellSizePair]

/-- `allocate_rect` never occurs among the events of a script run. -/
theorem allocateRect_not_mem_cmdEvents (direction : CellDirection)
    (cmds : List StripCmd) (sizes : List ℚ) :
    LayoutEvent.allocateRect ∉ cmdEvents direction cmds sizes := by
  induction cmds generalizing sizes with
  | nil => simp [cmdEvents]
  | cons c cs ih =>
      cases sizes with
      | nil =>
          rw [cmdEvents_cons_nil]
          simp only [List.mem_cons, not_or]
          exact ⟨fun h => event_ne_allocateRect direction 8 c h.symm, ih []⟩
      | cons q rest =>
          rw [cmdEvents_cons_cons]
          simp only [List.mem_cons, not_or]
          exact ⟨fun h => event_ne_allocateRect direction q c h.symm, ih rest⟩

/-- `allocate_rect` never occurs among the drain's events. -/
theorem allocateRect_not_mem_drainEvents (direction : CellDirection)
    (sizes : List ℚ) :
    LayoutEvent.allocateRect ∉ drainEvents direction sizes := by
  simp only [drainEvents, List.mem_map, not_exists]
  intro q
  cases direction <;> simp [cellSizePair]

/-- The primary-axis length of the pair forwarded by an `add` call is the
consumed length. -/
theorem primaryLen_addPair (direction : CellDirection) (size : ℚ) :
    LayoutEvent.primaryLen direction
      (LayoutEvent.add (cellSizePair direction size).1
        (cellSizePair direction size).2) = some size := by
  cases direction <;> rfl

/-- `consumedLengths` distributes over appended event logs. -/
theorem consumedLengths_append (direction : CellDirection)
    (es1 es2 : List LayoutEvent) :
    consumedLengths direction (es1 ++ es2) =
      consumedLengths direction es1 ++ consumedLengths direction es2 := by
  simp [consumedLengths, List.filterMap_append]

/-- Helper for C8: the sizing sequence accumulated by `StripBuilder::sizes`
is `count` appended copies. -/
theorem StripBuilder.sizes_sizing {L S : Type} (b : StripBuilder L S)
    (size : S) (count : ℕ) :
    (b.sizes size count).sizing = b.sizing ++ List.replicate count size := by
  induction count with
  | zero => simp [StripBuilder.sizes]
  | succ n ih =>
      have h1 : b.sizes size (n + 1) = (b.sizes size n).size size := by
        simp [StripBuilder.sizes, List.range_succ]
      rw [h1, StripBuilder.size, ih, List.append_assoc, ← List.replicate_succ']

/-- C9: `StripBuilder::new` produces a builder whose sizing sequence is
empty, whose clip flag defaults to `true`, and whose cell layout is a copy of
the surface's current layout taken at construction time. -/
theorem claim_C9_builder_defaults {L S : Type} (ui : Ui L) :
    (StripBuilder.new ui : StripBuilder L S).sizing = [] ∧
    (StripBuilder.new ui : StripBuilder L S).clip = true ∧
    (StripBuilder.new ui : StripBuilder L S).cell_layout = ui.layout :=
  ⟨rfl, rfl, rfl⟩

/-- C8: `size(spec)` appends exactly one specification, `sizes(spec, count)`
appends exactly `count` copies (nothing when `count = 0`), and the resulting
sequence order equals the order of the `size`/`sizes` calls. -/
theorem claim_C8_spec_accumulation {L S : Type} (b : StripBuilder L S)
    (spec spec2 : S) (count : ℕ) :
    (b.size spec).sizing = b.sizing ++ [spec] ∧
    (b.sizes spec count).sizing = b.sizing ++ List.replicate count spec ∧
    (b.sizes spec 0).sizing = b.sizing ∧
    ((b.size spec).size spec2).sizing = b.sizing ++ [spec, spec2] ∧
    ((b.sizes spec count).size spec2).sizing =
      (b.sizing ++ List.replicate count spec) ++ [spec2] := by
  refine ⟨rfl, StripBuilder.sizes_sizing b spec count, ?_, ?_, ?_⟩
  · simp [StripBuilder.sizes]
  · simp [StripBuilder.size]
  · rw [StripBuilder.size, StripBuilder.sizes_sizing]

/-- C7: `Strip::strip` wraps the nested-builder callback inside exactly one
`cell` call (consuming exactly one resolved length of the outer strip), and
the builder handed to that callback is a fresh builder over the cell's
surface whose clip flag inherits the current engine's clip setting. -/
theorem claim_C7_nested_strip {L : Type} (S : Type) (mode : BuildMode)
    (s : Strip L) (cellUi : Ui L) :
    Strip.strip S mode s cellUi =
      (s.cell mode).map
        (fun s1 => (s1, (StripBuilder.new cellUi).set_clip s.layout.clip)) ∧
    ((StripBuilder.new cellUi).set_clip s.layout.clip :
        StripBuilder L S).clip = s.layout.clip ∧
    ((StripBuilder.new cellUi).set_clip s.layout.clip :
        StripBuilder L S).sizing = [] := by
  refine ⟨?_, rfl, rfl⟩
  cases h : s.cell mode <;> simp [Strip.strip, h, Except.map]

/-- A concrete surface for the witnesses. -/
def sampleUi : Ui Unit :=
  { layout := (), availableWidth := 100, availableHeight := 50,
    itemSpacingX := 1, itemSpacingY := 2 }

/-- A concrete horizontal cursor over two resolved lengths. -/
def sampleStripH : Strip Unit :=
  { layout := StripLayout.new CellDirection.Horizontal true (),
    direction := CellDirection.Horizontal, sizes := [5, 7], diagnostics := 0 }

/-- A concrete vertical cursor over one resolved length. -/
def sampleStripV : Strip Unit :=
  { layout := StripLayout.new CellDirection.Vertical false (),
    direction := CellDirection.Vertical, sizes := [3], diagnostics := 0 }

/-- A concrete cursor with an exhausted view. -/
def sampleStripNil : Strip Unit :=
  { layout := StripLayout.new CellDirection.Horizontal true (),
    direction := CellDirection.Horizontal, sizes := [], diagnostics := 0 }

/-- C6: for every cell or empty cell consumed by a horizontal strip the size
pair forwarded to the engine is (Absolute(next length), Remainder), and for a
vertical strip it is (Remainder, Absolute(next length)). -/
theorem claim_C6_axis_size_mapping {L : Type} (mode : BuildMode) (s : Strip L)
    (q : ℚ) (rest : List ℚ) (h : s.sizes = q :: rest) :
    (s.direction = CellDirection.Horizontal →
      s.cell mode = Except.ok
        { layout := s.layout.add (CellSize.Absolute q) CellSize.Remainder,
          direction := s.direction, sizes := rest,
          diagnostics := s.diagnostics } ∧
      s.empty mode = Except.ok
        { layout := s.layout.empty (CellSize.Absolute q) CellSize.Remainder,
          direction := s.direction, sizes := rest,
          diagnostics := s.diagnostics }) ∧
    (s.direction = CellDirection.Vertical →
      s.cell mode = Except.ok
        { layout := s.layout.add CellSize.Remainder (CellSize.Absolute q),
          direction := s.direction, sizes := rest,
          diagnostics := s.diagnostics } ∧
      s.empty mode = Except.ok
        { layout := s.layout.empty CellSize.Remainder (CellSize.Absolute q),
          direction := s.direction, sizes := rest,
          diagnostics := s.diagnostics }) := by
  constructor
  · intro hdir
    rw [Strip.cell_cons mode s q rest h, Strip.empty_cons mode s q rest h]
    rw [hdir]
    exact ⟨rfl, rfl⟩
  · intro hdir
    rw [Strip.cell_cons mode s q rest h, Strip.empty_cons mode s q rest h]
    rw [hdir]
    exact ⟨rfl, rfl⟩

/-- Witness for C6 at a concrete horizontal cursor. -/
theorem claim_C6_axis_size_mapping_witness :
    sampleStripH.sizes = (5 : ℚ) :: [7] ∧
    Strip.cell BuildMode.debug sampleStripH = Except.ok
      { layout := sampleStripH.layout.add (CellSize.Absolute 5)
          CellSize.Remainder,
        direction := CellDirection.Horizontal, sizes := [7],
        diagnostics := 0 } :=
  ⟨rfl, ((claim_C6_axis_size_mapping BuildMode.debug sampleStripH 5 [7]
    rfl).1 rfl).1⟩

/-- C2: calling `cell`, `empty` or `strip` while the remaining view is empty
is never a silent no-op: a debug build aborts the pass with a panic, and a
release build emits one diagnostic and substitutes the small fixed fallback
length `8` as that cell's primary-axis size. -/
theorem claim_C2_overconsumption {L : Type} (S : Type) (s : Strip L)
    (cellUi : Ui L) (h : s.sizes = []) :
    (s.cell BuildMode.debug =
        Except.error "Added more Strip cells than were allocated." ∧
      s.empty BuildMode.debug =
        Except.error "Added more Strip cells than were allocated." ∧
      Strip.strip S BuildMode.debug s cellUi =
        Except.error "Added more Strip cells than were allocated.") ∧
    (s.cell BuildMode.release = Except.ok
        { layout := s.layout.add (cellSizePair s.direction 8).1
            (cellSizePair s.direction 8).2,
          direction := s.direction, sizes := [],
          diagnostics := s.diagnostics + 1 } ∧
      s.empty BuildMode.release = Except.ok
        { layout := s.layout.empty (cellSizePair s.direction 8).1
            (cellSizePair s.direction 8).2,
          direction := s.direction, sizes := [],
          diagnostics := s.diagnostics + 1 } ∧
      LayoutEvent.primaryLen s.direction
        (LayoutEvent.add (cellSizePair s.direction 8).1
          (cellSizePair s.direction 8).2) = some 8) := by
  refine ⟨⟨Strip.cell_nil_debug s h, Strip.empty_nil_debug s h, ?_⟩,
    Strip.cell_nil_release s h, Strip.empty_nil_release s h,
    primaryLen_addPair s.direction 8⟩
  simp [Strip.strip, Strip.cell_nil_debug s h]

/-- Witness for C2 at a concrete exhausted cursor. -/
theorem claim_C2_overconsumption_witness :
    sampleStripNil.sizes = [] ∧
    Strip.cell BuildMode.debug sampleStripNil =
      Except.error "Added more Strip cells than were allocated." ∧
    Strip.cell BuildMode.release sampleStripNil = Except.ok
      { layout := sampleStripNil.layout.add (CellSize.Absolute 8)
          CellSize.Remainder,
        direction := CellDirection.Horizontal, sizes := [],
        diagnostics := 1 } :=
  ⟨rfl,
    (claim_C2_overconsumption Unit sampleStripNil sampleUi rfl).1.1,
    (claim_C2_overconsumption Unit sampleStripNil sampleUi rfl).2.1⟩

/-- C3: every `cell`, `empty` or `strip` call on a cursor whose view is
non-empty consumes exactly one entry, from the front (never zero, never more
than one), and in a script run the i-th operation logs the i-th resolved
length, in input order. -/
theorem claim_C3_single_consumption {L : Type} (S : Type) (mode : BuildMode)
    (s : Strip L) (q : ℚ) (rest : List ℚ) (cellUi : Ui L)
    (h : s.sizes = q :: rest) :
    (∃ s1, s.cell mode = Except.ok s1 ∧ s1.sizes = rest ∧
      s1.layout.events = s.layout.events ++
        [StripCmd.event s.direction q StripCmd.cell]) ∧
    (∃ s2, s.empty mode = Except.ok s2 ∧ s2.sizes = rest ∧
      s2.layout.events = s.layout.events ++
        [StripCmd.event s.direction q StripCmd.empty]) ∧
    (∃ s3 b, Strip.strip S mode s cellUi = Except.ok (s3, b) ∧
      s3.sizes = rest ∧ s3.layout.events = s.layout.events ++
        [StripCmd.event s.direction q StripCmd.cell]) ∧
    (∀ (cmds : List StripCmd) (i : ℕ) (hlen : cmds.length ≤ s.sizes.length)
      (hi : i < cmds.length),
      ∃ s4, runCmds mode cmds s = Except.ok s4 ∧
        s4.layout.events.drop s.layout.events.length =
          List.zipWith (fun c p => StripCmd.event s.direction p c) cmds
            s.sizes ∧
        (s4.layout.events.drop s.layout.events.length)[i]? =
          some (StripCmd.event s.direction
            (s.sizes.get ⟨i, lt_of_lt_of_le hi hlen⟩)
            (cmds.get ⟨i, hi⟩))) := by
  refine ⟨⟨_, Strip.cell_cons mode s q rest h, rfl, rfl⟩,
    ⟨_, Strip.empty_cons mode s q rest h, rfl, rfl⟩, ?_, ?_⟩
  · refine ⟨{ layout := (s.layout.add (cellSizePair s.direction q).1 (cellSizePair s.direction q).2),
               direction := s.direction, sizes := rest,
               diagnostics := s.diagnostics },
      (StripBuilder.new cellUi).set_clip s.layout.clip, ?_, rfl, rfl⟩
    simp [Strip.strip, Strip.cell_cons mode s q rest h]
  · intro cmds i hlen hi
    refine ⟨_, runCmds_ok mode cmds s hlen, ?_, ?_⟩
    · exact List.drop_left s.layout.events _
    · show ((s.layout.events ++
          List.zipWith (fun c p => StripCmd.event s.direction p c) cmds
            s.sizes).drop s.layout.events.length)[i]? = _
      rw [List.drop_left s.layout.events, List.getElem?_zipWith']
      rw [List.getElem?_eq_getElem hi,
        List.getElem?_eq_getElem (lt_of_lt_of_le hi hlen)]
      simp [List.get_eq_getElem]

/-- Witness for C3 at a concrete horizontal cursor. -/
theorem claim_C3_single_consumption_witness :
    sampleStripH.sizes = (5 : ℚ) :: [7] ∧
    (∃ s1, Strip.cell BuildMode.debug sampleStripH = Except.ok s1 ∧
      s1.sizes = [7] ∧
      s1.layout.events = sampleStripH.layout.events ++
        [StripCmd.event CellDirection.Horizontal 5 StripCmd.cell]) :=
  ⟨rfl, (claim_C3_single_consumption Unit BuildMode.debug sampleStripH 5 [7]
    sampleUi rfl).1⟩

/-- C1: drain invariant — for a strip over `N` resolved lengths, if the
callback issues `k ≤ N` cell/empty operations and then returns, every
operation succeeds, the drop-time drain consumes exactly `N - k` additional
empty cells, and the primary-axis lengths consumed over the whole pass are
exactly the `N` resolved lengths, in order. -/
theorem claim_C1_drain_invariant {L : Type} (mode : BuildMode)
    (cmds : List StripCmd) (s : Strip L)
    (hk : cmds.length ≤ s.sizes.length) :
    ∃ s1, runCmds mode cmds s = Except.ok s1 ∧
      s1.sizes.length = s.sizes.length - cmds.length ∧
      (Strip.drop mode s1).layout.events =
        s1.layout.events ++ drainEvents s.direction s1.sizes ∧
      (drainEvents s.direction s1.sizes).length =
        s.sizes.length - cmds.length ∧
      consumedLengths s.direction
        ((Strip.drop mode s1).layout.events.drop s.layout.events.length) =
        s.sizes := by
  refine ⟨_, runCmds_ok mode cmds s hk, ?_, ?_, ?_, ?_⟩
  · simp
  · simp [Strip.drop_spec]
  · simp [drainEvents]
  · rw [Strip.drop_spec mode _]
    show consumedLengths s.direction
      (((s.layout.events ++
        List.zipWith (fun c p => StripCmd.event s.direction p c) cmds
          s.sizes) ++
        drainEvents s.direction (s.sizes.drop cmds.length)).drop
          s.layout.events.length) = s.sizes
    rw [List.append_assoc, List.drop_left s.layout.events]
    have hzip : List.zipWith (fun c p => StripCmd.event s.direction p c) cmds
        s.sizes = cmdEvents s.direction cmds s.sizes := by
      simp [cmdEvents, List.drop_eq_nil_of_le hk]
    rw [hzip, consumedLengths_append, consumedLengths_cmdEvents,
      consumedLengths_drainEvents]
    have h0 : cmds.length - s.sizes.length = 0 := by omega
    simp [h0, List.take_append_drop]

/-- Witness for C1: two resolved lengths, one `cell` call, one drained empty
cell. -/
theorem claim_C1_drain_invariant_witness :
    [StripCmd.cell].length ≤ sampleStripH.sizes.length ∧
    (∃ s1, runCmds BuildMode.debug [StripCmd.cell] sampleStripH =
        Except.ok s1 ∧
      s1.sizes.length = sampleStripH.sizes.length - [StripCmd.cell].length ∧
      (Strip.drop BuildMode.debug s1).layout.events =
        s1.layout.events ++
          drainEvents sampleStripH.direction s1.sizes ∧
      (drainEvents sampleStripH.direction s1.sizes).length =
        sampleStripH.sizes.length - [StripCmd.cell].length ∧
      consumedLengths sampleStripH.direction
        ((Strip.drop BuildMode.debug s1).layout.events.drop
          sampleStripH.layout.events.length) = sampleStripH.sizes) :=
  ⟨by decide,
    claim_C1_drain_invariant BuildMode.debug [StripCmd.cell] sampleStripH
      (by decide)⟩

/-- C10: the drop-time drain terminates on every finite remaining view,
performing exactly one automatic `empty` per unconsumed length — it empties
the view and appends exactly `sizes.length` events — and each automatic
`empty` call removes exactly one entry from the front of the view. -/
theorem claim_C10_drain_termination {L : Type} (mode : BuildMode)
    (s : Strip L) :
    (Strip.drop mode s).sizes = [] ∧
    (Strip.drop mode s).layout.events =
      s.layout.events ++ drainEvents s.direction s.sizes ∧
    (Strip.drop mode s).layout.events.length =
      s.layout.events.length + s.sizes.length ∧
    (∀ q rest, s.sizes = q :: rest →
      ∃ s1, s.empty mode = Except.ok s1 ∧ s1.sizes = rest ∧
        Strip.drop mode s = Strip.drop mode s1) := by
  refine ⟨?_, ?_, ?_, ?_⟩
  · rw [Strip.drop_spec]
  · rw [Strip.drop_spec]
  · rw [Strip.drop_spec]
    simp [drainEvents]
  · intro q rest hqr
    refine ⟨_, Strip.empty_cons mode s q rest hqr, rfl, ?_⟩
    rw [Strip.drop_spec, Strip.drop_spec]
    simp [StripLayout.empty, drainEvents, hqr]

/-- Witness for C10's per-step clause at a concrete cursor. -/
theorem claim_C10_drain_termination_witness :
    (Strip.drop BuildMode.debug sampleStripH).sizes = [] ∧
    (Strip.drop BuildMode.debug sampleStripH).layout.events.length =
      sampleStripH.layout.events.length + sampleStripH.sizes.length :=
  ⟨(claim_C10_drain_termination BuildMode.debug sampleStripH).1,
    (claim_C10_drain_termination BuildMode.debug sampleStripH).2.2.1⟩

/-- C4: `horizontal` resolves the lengths by passing the surface's available
width and horizontal item spacing to the resolver, `vertical` by passing the
available height and vertical item spacing; each constructs an engine bound
to the matching direction with the builder's clip and cell-layout settings,
invokes the caller's callback exactly once with a cursor over that engine and
the resolved lengths, and returns the engine's interaction handle — i.e.
each equals the spec-side finalization sequence `finalizeSpec` at the
matching axis arguments. -/
theorem claim_C4_finalize_sequence {L S : Type}
    (to_lengths : List S → ℚ → ℚ → List ℚ) (b : StripBuilder L S)
    (mode : BuildMode) (f : Strip L → Except String (Strip L)) :
    StripBuilder.horizontal to_lengths b mode f =
      finalizeSpec to_lengths b CellDirection.Horizontal
        b.ui.availableWidth b.ui.itemSpacingX mode f ∧
    StripBuilder.vertical to_lengths b mode f =
      finalizeSpec to_lengths b CellDirection.Vertical
        b.ui.availableHeight b.ui.itemSpacingY mode f := by
  constructor
  · rcases hf : f { layout := (StripLayout.new CellDirection.Horizontal b.clip b.cell_layout),
                    direction := CellDirection.Horizontal,
                    sizes := (to_lengths b.sizing b.ui.availableWidth b.ui.itemSpacingX),
                    diagnostics := 0 } with e | s1 <;>
      simp [StripBuilder.horizontal, finalizeSpec, hf]
  · rcases hf : f { layout := (StripLayout.new CellDirection.Vertical b.clip b.cell_layout),
                    direction := CellDirection.Vertical,
                    sizes := (to_lengths b.sizing b.ui.availableHeight b.ui.itemSpacingY),
                    diagnostics := 0 } with e | s1 <;>
      simp [StripBuilder.vertical, finalizeSpec, hf]

/-- Events of one whole cursor pass (script, then drop-time drain): in every
build mode, a successful run logs the script's events followed by one empty
event per unconsumed length. -/
theorem run_drop_events {L : Type} (mode : BuildMode) (cmds : List StripCmd)
    (s s1 : Strip L) (hrun : runCmds mode cmds s = Except.ok s1) :
    (Strip.drop mode s1).layout.events =
      (s.layout.events ++ cmdEvents s.direction cmds s.sizes) ++
        drainEvents s.direction (s.sizes.drop cmds.length) := by
  cases mode with
  | release =>
      rw [runCmds_release] at hrun
      injection hrun with h1
      subst h1
      simp [Strip.drop_spec, List.append_assoc]
  | debug =>
      by_cases hk : cmds.length ≤ s.sizes.length
      · rw [runCmds_ok BuildMode.debug cmds s hk] at hrun
        injection hrun with h1
        subst h1
        have hznil : cmds.drop s.sizes.length = [] :=
          List.drop_eq_nil_of_le hk
        simp [Strip.drop_spec, cmdEvents, hznil, List.append_assoc]
      · rw [runCmds_debug_err cmds s (by omega)] at hrun
        cases hrun

/-- A successful `horizontal` call with a script callback yields a handle
whose trace is the script's events, the drain's events, then the single
`allocate_rect`. -/
theorem horizontal_ok_events {L S : Type}
    (to_lengths : List S → ℚ → ℚ → List ℚ) (b : StripBuilder L S)
    (mode : BuildMode) (cmds : List StripCmd) (resp : Response)
    (h : StripBuilder.horizontal to_lengths b mode (runCmds mode cmds) =
      Except.ok resp) :
    resp.events =
      (cmdEvents CellDirection.Horizontal cmds
          (to_lengths b.sizing b.ui.availableWidth b.ui.itemSpacingX) ++
        drainEvents CellDirection.Horizontal
          ((to_lengths b.sizing b.ui.availableWidth
            b.ui.itemSpacingX).drop cmds.length)) ++
      [LayoutEvent.allocateRect] := by
  rcases hrun : runCmds mode cmds
      ({ layout := (StripLayout.new CellDirection.Horizontal b.clip b.cell_layout),
         direction := CellDirection.Horizontal,
         sizes := (to_lengths b.sizing b.ui.availableWidth b.ui.itemSpacingX),
         diagnostics := 0 } : Strip L) with e | s1
  · rw [StripBuilder.horizontal, hrun] at h
    cases h
  · rw [StripBuilder.horizontal, hrun] at h
    simp only [exceptBind_ok] at h
    injection h with h1
    subst h1
    show ((Strip.drop mode s1).layout.allocate_rect).2.events = _
    rw [StripLayout.allocate_rect]
    show (Strip.drop mode s1).layout.events ++ [LayoutEvent.allocateRect] = _
    rw [run_drop_events mode cmds _ s1 hrun]
    simp [StripLayout.new]

/-- A successful `vertical` call with a script callback yields a handle whose
trace is the script's events, the drain's events, then the single
`allocate_rect`. -/
theorem vertical_ok_events {L S : Type}
    (to_lengths : List S → ℚ → ℚ → List ℚ) (b : StripBuilder L S)
    (mode : BuildMode) (cmds : List StripCmd) (resp : Response)
    (h : StripBuilder.vertical to_lengths b mode (runCmds mode cmds) =
      Except.ok resp) :
    resp.events =
      (cmdEvents CellDirection.Vertical cmds
          (to_lengths b.sizing b.ui.availableHeight b.ui.itemSpacingY) ++
        drainEvents CellDirection.Vertical
          ((to_lengths b.sizing b.ui.availableHeight
            b.ui.itemSpacingY).drop cmds.length)) ++
      [LayoutEvent.allocateRect] := by
  rcases hrun : runCmds mode cmds
      ({ layout := (StripLayout.new CellDirection.Vertical b.clip b.cell_layout),
         direction := CellDirection.Vertical,
         sizes := (to_lengths b.sizing b.ui.availableHeight b.ui.itemSpacingY),
         diagnostics := 0 } : Strip L) with e | s1
  · rw [StripBuilder.vertical, hrun] at h
    cases h
  · rw [StripBuilder.vertical, hrun] at h
    simp only [exceptBind_ok] at h
    injection h with h1
    subst h1
    show ((Strip.drop mode s1).layout.allocate_rect).2.events = _
    rw [StripLayout.allocate_rect]
    show (Strip.drop mode s1).layout.events ++ [LayoutEvent.allocateRect] = _
    rw [run_drop_events mode cmds _ s1 hrun]
    simp [StripLayout.new]

/-- Consumed lengths of a whole pass (script plus drain): the full resolver
output followed by one fallback `8` per over-consuming operation. -/
theorem consumedLengths_pass (direction : CellDirection)
    (cmds : List StripCmd) (sizes : List ℚ) :
    consumedLengths direction
        (cmdEvents direction cmds sizes ++
          drainEvents direction (sizes.drop cmds.length)) =
      sizes ++ List.replicate (cmds.length - sizes.length) 8 := by
  rw [consumedLengths_append, consumedLengths_cmdEvents,
    consumedLengths_drainEvents]
  rcases Nat.le_total cmds.length sizes.length with hle | hle
  · have h0 : cmds.length - sizes.length = 0 := by omega
    simp [h0, List.take_append_drop]
  · have htake : sizes.take cmds.length = sizes :=
      List.take_of_length_le hle
    have hdrop : sizes.drop cmds.length = [] :=
      List.drop_eq_nil_of_le hle
    simp [htake, hdrop]

/-- C5: in one successful `horizontal`/`vertical` call, `allocate_rect` is
invoked exactly once, strictly after every cell/empty operation of the strip
(including the drain's), so the handle's trace is the consumption events —
whose primary-axis lengths start with the full resolver output — followed by
the single final `allocate_rect`, with nothing after it. -/
theorem claim_C5_finalization_order {L S : Type}
    (to_lengths : List S → ℚ → ℚ → List ℚ) (b1 b2 : StripBuilder L S)
    (mode : BuildMode) (cmds1 cmds2 : List StripCmd) (respH respV : Response)
    (hH : StripBuilder.horizontal to_lengths b1 mode (runCmds mode cmds1) =
      Except.ok respH)
    (hV : StripBuilder.vertical to_lengths b2 mode (runCmds mode cmds2) =
      Except.ok respV) :
    (∃ es, respH.events = es ++ [LayoutEvent.allocateRect] ∧
      LayoutEvent.allocateRect ∉ es ∧
      consumedLengths CellDirection.Horizontal es =
        to_lengths b1.sizing b1.ui.availableWidth b1.ui.itemSpacingX ++
          List.replicate (cmds1.length - (to_lengths b1.sizing
            b1.ui.availableWidth b1.ui.itemSpacingX).length) 8) ∧
    (∃ es, respV.events = es ++ [LayoutEvent.allocateRect] ∧
      LayoutEvent.allocateRect ∉ es ∧
      consumedLengths CellDirection.Vertical es =
        to_lengths b2.sizing b2.ui.availableHeight b2.ui.itemSpacingY ++
          List.replicate (cmds2.length - (to_lengths b2.sizing
            b2.ui.availableHeight b2.ui.itemSpacingY).length) 8) := by
  constructor
  · refine ⟨_, horizontal_ok_events to_lengths b1 mode cmds1 respH hH, ?_,
      consumedLengths_pass CellDirection.Horizontal cmds1 _⟩
    intro hmem
    rcases List.mem_append.mp hmem with hm | hm
    · exact allocateRect_not_mem_cmdEvents CellDirection.Horizontal _ _ hm
    · exact allocateRect_not_mem_drainEvents CellDirection.Horizontal _ hm
  · refine ⟨_, vertical_ok_events to_lengths b2 mode cmds2 respV hV, ?_,
      consumedLengths_pass CellDirection.Vertical cmds2 _⟩
    intro hmem
    rcases List.mem_append.mp hmem with hm | hm
    · exact allocateRect_not_mem_cmdEvents CellDirection.Vertical _ _ hm
    · exact allocateRect_not_mem_drainEvents CellDirection.Vertical _ hm

/-- Resolver used by the C5 witness: one length from the available extent,
one from the spacing. -/
def sampleResolver : List Unit → ℚ → ℚ → List ℚ :=
  fun _ available spacing => [available, spacing]

/-- Builder used by the C5 witness. -/
def sampleBuilder : StripBuilder Unit Unit := StripBuilder.new sampleUi

/-- Witness for C5: a concrete horizontal pass (one `cell` call, one drained
length) and a concrete vertical pass (no calls, both lengths drained). -/
theorem claim_C5_finalization_order_witness :
    (StripBuilder.horizontal sampleResolver sampleBuilder BuildMode.release
        (runCmds BuildMode.release [StripCmd.cell]) =
      Except.ok ⟨[LayoutEvent.add (CellSize.Absolute 100) CellSize.Remainder,
        LayoutEvent.empty (CellSize.Absolute 1) CellSize.Remainder,
        LayoutEvent.allocateRect]⟩) ∧
    (StripBuilder.vertical sampleResolver sampleBuilder BuildMode.release
        (runCmds BuildMode.release []) =
      Except.ok ⟨[LayoutEvent.empty CellSize.Remainder (CellSize.Absolute 50),
        LayoutEvent.empty CellSize.Remainder (CellSize.Absolute 2),
        LayoutEvent.allocateRect]⟩) ∧
    ((∃ es, (⟨[LayoutEvent.add (CellSize.Absolute 100) CellSize.Remainder,
        LayoutEvent.empty (CellSize.Absolute 1) CellSize.Remainder,
        LayoutEvent.allocateRect]⟩ : Response).events =
          es ++ [LayoutEvent.allocateRect] ∧
      LayoutEvent.allocateRect ∉ es ∧
      consumedLengths CellDirection.Horizontal es =
        sampleResolver sampleBuilder.sizing sampleBuilder.ui.availableWidth
            sampleBuilder.ui.itemSpacingX ++
          List.replicate ([StripCmd.cell].length -
            (sampleResolver sampleBuilder.sizing
              sampleBuilder.ui.availableWidth
              sampleBuilder.ui.itemSpacingX).length) 8) ∧
    (∃ es, (⟨[LayoutEvent.empty CellSize.Remainder (CellSize.Absolute 50),
        LayoutEvent.empty CellSize.Remainder (CellSize.Absolute 2),
        LayoutEvent.allocateRect]⟩ : Response).events =
          es ++ [LayoutEvent.allocateRect] ∧
      LayoutEvent.allocateRect ∉ es ∧
      consumedLengths CellDirection.Vertical es =
        sampleResolver sampleBuilder.sizing sampleBuilder.ui.availableHeight
            sampleBuilder.ui.itemSpacingY ++
          List.replicate (([] : List StripCmd).length -
            (sampleResolver sampleBuilder.sizing
              sampleBuilder.ui.availableHeight
              sampleBuilder.ui.itemSpacingY).length) 8)) := by
  have hH : StripBuilder.horizontal sampleResolver sampleBuilder
      BuildMode.release (runCmds BuildMode.release [StripCmd.cell]) =
      Except.ok ⟨[LayoutEvent.add (CellSize.Absolute 100) CellSize.Remainder,
        LayoutEvent.empty (CellSize.Absolute 1) CellSize.Remainder,
        LayoutEvent.allocateRect]⟩ := by
    simp only [StripBuilder.horizontal]
    rw [runCmds_release]
    simp only [exceptBind_ok]
    rw [Strip.drop_spec]
    rfl
  have hV : StripBuilder.vertical sampleResolver sampleBuilder
      BuildMode.release (runCmds BuildMode.release []) =
      Except.ok ⟨[LayoutEvent.empty CellSize.Remainder (CellSize.Absolute 50),
        LayoutEvent.empty CellSize.Remainder (CellSize.Absolute 2),
        LayoutEvent.allocateRect]⟩ := by
    simp only [StripBuilder.vertical]
    rw [runCmds_release]
    simp only [exceptBind_ok]
    rw [Strip.drop_spec]
    rfl
  exact ⟨hH, hV, claim_C5_finalization_order sampleResolver sampleBuilder
    sampleBuilder BuildMode.release [StripCmd.cell] [] _ _ hH hV⟩
